import Mathlib

/-!
Verification of the context-processing core of the Jf25_pulse repository
(`opencontext.context_processing`): format processors (code, Excel,
structured data), the auto-tagging service's tag cleaning, and the
enhanced search service.

Python strings are modelled as `List Char` where character-level
operations matter (tag cleaning) and as `String` elsewhere.  Python
floats (similarity distances, relevance scores) are modelled as exact
rationals `ℚ`: the arithmetic involved (`1 - d` and comparisons) is
order-preserving and the claims do not depend on rounding.  Python
exceptions are modelled with `Except String`; a `try/except` block
becomes a `match` on the body's result.
-/

namespace Pulse

/-! ## Auto-tagging service: `AutoTaggingService._clean_tags`
    (src/opencontext/context_processing/auto_tagging_service.py, lines 139-160)

A Python `str` is a `List Char`; `str.strip()` drops whitespace at both
ends, `str.lower()` lowercases characters. -/

/-- Python `str.strip()` default whitespace test. -/
def isSpacePy (c : Char) : Bool := c.isWhitespace

/-- Python `str.strip()`: drop whitespace from both ends. -/
def strip (l : List Char) : List Char :=
  ((l.dropWhile isSpacePy).reverse.dropWhile isSpacePy).reverse

/-- Python `str.lower()`, character-wise. -/
def lowerStr (l : List Char) : List Char := l.map Char.toLower

/-- The first loop of `_clean_tags`: strip each tag and keep the stripped
tag when it is non-empty and shorter than 100 characters
(`if tag and len(tag) > 0 and len(tag) < 100`). -/
def cleanFilter (tags : List (List Char)) : List (List Char) :=
  tags.filterMap (fun tag =>
    let tag' := strip tag
    if tag' ≠ [] ∧ 0 < tag'.length ∧ tag'.length < 100 then some tag' else none)

/-- The second loop of `_clean_tags`: remove duplicates case-insensitively
(`tag_lower not in seen`) while preserving first-seen order.  `seen` is the
accumulating set of lowercased tags. -/
def dedupeLower (seen : List (List Char)) : List (List Char) → List (List Char)
  | [] => []
  | t :: ts =>
    if lowerStr t ∈ seen then dedupeLower seen ts
    else t :: dedupeLower (lowerStr t :: seen) ts

/-- `AutoTaggingService._clean_tags` on a list of strings: strip and
range-filter, de-duplicate case-insensitively preserving order, cap to 10
(`return unique[:10]`). -/
def clean_tags (tags : List (List Char)) : List (List Char) :=
  (dedupeLower [] (cleanFilter tags)).take 10

/-! ### Helper lemmas for idempotence of `clean_tags` -/

/-- Dropping the trailing run of `p`-elements, via reverse. -/
def dropLastWhile (p : α → Bool) (l : List α) : List α :=
  (l.reverse.dropWhile p).reverse

theorem strip_eq_dropLastWhile (l : List Char) :
    strip l = dropLastWhile isSpacePy (l.dropWhile isSpacePy) := rfl

theorem dropWhile_eq_self_of_head (p : α → Bool) (l : List α)
    (h : ∀ a, l.head? = some a → p a = false) : l.dropWhile p = l := by
  cases l with
  | nil => rfl
  | cons a l => simp [List.dropWhile_cons, h a rfl]

theorem dropWhile_idem (p : α → Bool) (l : List α) :
    (l.dropWhile p).dropWhile p = l.dropWhile p := by
  apply dropWhile_eq_self_of_head
  intro a ha
  have h := List.head?_dropWhile_not p l
  rw [ha] at h
  exact h

theorem dropLastWhile_idem (p : α → Bool) (l : List α) :
    dropLastWhile p (dropLastWhile p l) = dropLastWhile p l := by
  simp [dropLastWhile, dropWhile_idem]

/-- `dropLastWhile p l` is a prefix of `l`. -/
theorem exists_append_dropLastWhile (p : α → Bool) (l : List α) :
    ∃ t, l = dropLastWhile p l ++ t := by
  refine ⟨(l.reverse.takeWhile p).reverse, ?_⟩
  have h : l.reverse.takeWhile p ++ l.reverse.dropWhile p = l.reverse :=
    List.takeWhile_append_dropWhile p l.reverse
  calc l = l.reverse.reverse := by rw [List.reverse_reverse]
    _ = (l.reverse.takeWhile p ++ l.reverse.dropWhile p).reverse := by rw [h]
    _ = dropLastWhile p l ++ (l.reverse.takeWhile p).reverse := by
        rw [List.reverse_append]; rfl

theorem strip_idem (l : List Char) : strip (strip l) = strip l := by
  rw [strip_eq_dropLastWhile]
  have hdrop : (strip l).dropWhile isSpacePy = strip l := by
    apply dropWhile_eq_self_of_head
    intro a ha
    obtain ⟨t, ht⟩ := exists_append_dropLastWhile isSpacePy (l.dropWhile isSpacePy)
    rw [strip_eq_dropLastWhile] at ha
    have hhead := List.head?_dropWhile_not isSpacePy l
    cases hd : dropLastWhile isSpacePy (l.dropWhile isSpacePy) with
    | nil => rw [hd] at ha; simp at ha
    | cons b bs =>
      rw [hd] at ha ht
      simp only [List.head?] at ha
      injection ha with hab
      subst hab
      rw [ht] at hhead
      simpa using hhead
  rw [hdrop, strip_eq_dropLastWhile l, dropLastWhile_idem]

theorem mem_dedupeLower {t : List Char} {seen l} :
    t ∈ dedupeLower seen l → t ∈ l := by
  induction l generalizing seen with
  | nil => intro h; simp [dedupeLower] at h
  | cons a as ih =>
    intro h
    by_cases hm : lowerStr a ∈ seen
    · rw [dedupeLower, if_pos hm] at h
      exact List.mem_cons_of_mem _ (ih h)
    · rw [dedupeLower, if_neg hm] at h
      rcases List.mem_cons.mp h with h | h
      · simp [h]
      · exact List.mem_cons_of_mem _ (ih h)

theorem dedupeLower_lower_notin_seen {seen l} :
    ∀ t ∈ dedupeLower seen l, lowerStr t ∉ seen := by
  induction l generalizing seen with
  | nil => intro t ht; simp [dedupeLower] at ht
  | cons a as ih =>
    intro t ht
    by_cases hm : lowerStr a ∈ seen
    · rw [dedupeLower, if_pos hm] at ht
      exact ih t ht
    · rw [dedupeLower, if_neg hm] at ht
      rcases List.mem_cons.mp ht with ht | ht
      · subst ht; exact hm
      · intro hmem
        exact ih t ht (List.mem_cons_of_mem _ hmem)

theorem dedupeLower_nodup (seen l) :
    ((dedupeLower seen l).map lowerStr).Nodup := by
  induction l generalizing seen with
  | nil => simp [dedupeLower]
  | cons a as ih =>
    by_cases hm : lowerStr a ∈ seen
    · rw [dedupeLower, if_pos hm]
      exact ih seen
    · rw [dedupeLower, if_neg hm]
      simp only [List.map_cons, List.nodup_cons]
      constructor
      · intro hmem
        obtain ⟨t, htmem, hteq⟩ := List.mem_map.mp hmem
        exact dedupeLower_lower_notin_seen t htmem (by simp [hteq])
      · exact ih _

theorem dedupeLower_eq_self {seen l} (hseen : ∀ t ∈ l, lowerStr t ∉ seen)
    (hnd : (l.map lowerStr).Nodup) : dedupeLower seen l = l := by
  induction l generalizing seen with
  | nil => rfl
  | cons a as ih =>
    simp only [List.map_cons, List.nodup_cons] at hnd
    rw [dedupeLower, if_neg (hseen a (List.mem_cons_self a as))]
    congr 1
    apply ih
    · intro t ht
      simp only [List.mem_cons, not_or]
      constructor
      · intro heq
        exact hnd.1 (heq ▸ List.mem_map_of_mem lowerStr ht)
      · exact hseen t (List.mem_cons_of_mem _ ht)
    · exact hnd.2

theorem mem_cleanFilter_props {t : List Char} {tags} (h : t ∈ cleanFilter tags) :
    strip t = t ∧ t ≠ [] ∧ t.length < 100 := by
  simp only [cleanFilter, List.mem_filterMap] at h
  obtain ⟨a, _, ha⟩ := h
  split at ha
  · rename_i hcond
    injection ha with ha
    subst ha
    exact ⟨strip_idem a, hcond.1, hcond.2.2⟩
  · exact absurd ha (by simp)

theorem cleanFilter_eq_self {l : List (List Char)}
    (h : ∀ t ∈ l, strip t = t ∧ t ≠ [] ∧ t.length < 100) :
    cleanFilter l = l := by
  induction l with
  | nil => rfl
  | cons a as ih =>
    obtain ⟨hs, hne, hlt⟩ := h a (List.mem_cons_self a as)
    have hcond : strip a ≠ [] ∧ 0 < (strip a).length ∧ (strip a).length < 100 := by
      rw [hs]
      exact ⟨hne, List.length_pos.mpr hne, hlt⟩
    have hstep : cleanFilter (a :: as) = strip a :: cleanFilter as := by
      simp only [cleanFilter, List.filterMap_cons, if_pos hcond]
    rw [hstep, hs]
    congr 1
    exact ih (fun t ht => h t (List.mem_cons_of_mem _ ht))

/-- Every element of `clean_tags x` is already stripped, non-empty, short,
and the lowercased outputs are pairwise distinct; the output has at most
10 entries. -/
theorem clean_tags_output_props (x : List (List Char)) :
    (∀ t ∈ clean_tags x, strip t = t ∧ t ≠ [] ∧ t.length < 100) ∧
      ((clean_tags x).map lowerStr).Nodup ∧ (clean_tags x).length ≤ 10 := by
  refine ⟨?_, ?_, ?_⟩
  · intro t ht
    have h1 : t ∈ dedupeLower [] (cleanFilter x) :=
      List.mem_of_mem_take ht
    exact mem_cleanFilter_props (mem_dedupeLower h1)
  · have hnd := dedupeLower_nodup [] (cleanFilter x)
    have hsub : List.Sublist ((clean_tags x).map lowerStr)
        ((dedupeLower [] (cleanFilter x)).map lowerStr) :=
      (List.take_sublist _ _).map lowerStr
    exact hnd.sublist hsub
  · exact List.length_take_le 10 (dedupeLower [] (cleanFilter x))

/-- C8: the auto-tagging cleaning function is idempotent:
`clean(clean(x)) == clean(x)` for every input list of strings.  `clean`
strips whitespace, drops empty or length≥100 entries, de-duplicates
case-insensitively preserving first-seen order, and caps to 10 entries. -/
theorem clean_tags_idempotent (x : List (List Char)) :
    clean_tags (clean_tags x) = clean_tags x := by
  obtain ⟨hprops, hnodup, hlen⟩ := clean_tags_output_props x
  have h1 : cleanFilter (clean_tags x) = clean_tags x := cleanFilter_eq_self hprops
  have h2 : dedupeLower [] (clean_tags x) = clean_tags x :=
    dedupeLower_eq_self (by simp) hnodup
  calc clean_tags (clean_tags x)
      = (dedupeLower [] (cleanFilter (clean_tags x))).take 10 := rfl
    _ = (clean_tags x).take 10 := by rw [h1, h2]
    _ = clean_tags x := List.take_of_length_le hlen

/-! ## Data model: `Chunk`
    (src/opencontext/models/context.py, as used by the processors) -/

/-- A chunk of processed content: text, positional index, keywords and
entities (`entities` defaults to the empty list). -/
structure Chunk where
  text : String
  chunk_index : Nat
  keywords : List String
  entities : List String := []
deriving DecidableEq

/-! ## Code processor: `CodeProcessor`
    (src/opencontext/context_processing/processor/code_processor.py)

Regex matching over a single line is abstracted: a pattern set for a
language is a list of `(element_type, matcher)` pairs in the fixed scan
order `function, class, struct`, where `matcher line` returns the
element name recorded for a match of that element type's regex on
`line` (`match.group(1) if match.lastindex else "unknown"`), or `none`
when the regex does not match.  All theorems below hold for every such
pattern set, hence for the concrete regexes of the source. -/

/-- One syntax-element pattern set: `(element_type, line matcher)` pairs. -/
def PatternSet := List (String × (String → Option String))

/-- Python's `code.split('\n')`. -/
def splitLines (code : String) : List String := code.splitOn "\n"

/-- The sequential slicing loop `for i in range(0, len(lines), n)`:
returns `(offset, lines[offset:offset+n])` windows, realised through the
number `⌈len/n⌉` of loop iterations so that the definition is
structurally computable.  In the source `n` is a chunk-size
configuration value (default 100); Python's `range` raises `ValueError`
on step 0, so `n = 0` (where this returns `[]`) is unreachable under any
configuration that reaches the loop body. -/
def windows {α : Type} (n : Nat) (off : Nat) (lines : List α) : List (Nat × List α) :=
  (List.range ((lines.length + n - 1) / n)).map
    (fun i => (off + i * n, (lines.drop (i * n)).take n))

/-- `CodeProcessor._chunk_by_lines` (lines 291-309): fixed-size line
windows, chunk text labelled by 1-based line range, `chunk_index`
continuing from `start_idx`. -/
def chunk_by_lines (n : Nat) (lines : List String) (fileName : String)
    (startIdx : Nat) : List Chunk :=
  (windows n 0 lines).enum.map (fun p =>
    { text := "Lines " ++ toString (p.2.1 + 1) ++ "-" ++
        toString (p.2.1 + p.2.2.length) ++ "\n\n" ++ String.intercalate "\n" p.2.2,
      chunk_index := startIdx + p.1,
      keywords := [fileName, "lines_" ++ toString (p.2.1 + 1) ++ "_" ++
        toString (p.2.1 + p.2.2.length)] })

/-- Python `str.capitalize()`. -/
def pyCapitalize (s : String) : String :=
  match s.data with
  | [] => ""
  | c :: cs => String.mk (c.toUpper :: cs.map Char.toLower)

/-- The element scan of `CodeProcessor._chunk_by_syntax` (lines 253-265):
for each line in order, for each element type in pattern order, record
`(type, name, line_number)` on a regex match. -/
def findElements (patterns : PatternSet) (lines : List String) :
    List (String × String × Nat) :=
  lines.enum.flatMap (fun p =>
    patterns.filterMap (fun q => (q.2 p.2).map (fun name => (q.1, name, p.1))))

/-- `CodeProcessor._chunk_by_syntax` (lines 245-289): one chunk per
detected element spanning to the next element (or EOF), `chunk_index`
starting at 1; falls back to `_chunk_by_lines(lines, file_name, 1)` when
no elements are found. -/
def chunk_by_elements (patterns : PatternSet) (n : Nat) (lines : List String)
    (language fileName : String) : List Chunk :=
  let elements := findElements patterns lines
  let chunks := elements.enum.map (fun p =>
    let startLine := p.2.2.2
    let endLine := match elements.get? (p.1 + 1) with
      | some e => e.2.2
      | none => lines.length
    { text := pyCapitalize p.2.1 ++ ": " ++ p.2.2.1 ++ "\n" ++
        "Lines " ++ toString (startLine + 1) ++ "-" ++ toString endLine ++ "\n\n" ++
        String.intercalate "\n" ((lines.drop startLine).take (endLine - startLine)),
      chunk_index := p.1 + 1,
      keywords := [fileName, language, p.2.1, p.2.2.1],
      entities := [p.2.2.1] })
  if chunks.isEmpty then chunk_by_lines n lines fileName 1 else chunks

/-- `CodeProcessor._create_chunks_from_code` (lines 212-243): an overview
chunk at index 0, followed by syntax-element chunks when the language has
a registered pattern set (`patterns? = some pats`) and line-window chunks
otherwise. -/
def create_chunks_from_code (patterns? : Option PatternSet) (n : Nat)
    (code : String) (language fileName : String) : List Chunk :=
  let lines := splitLines code
  let previewLines := min 20 lines.length
  let overview : Chunk :=
    { text := "Code File: " ++ fileName ++ "\n" ++ "Language: " ++ language ++ "\n" ++
        "Total Lines: " ++ toString lines.length ++ "\n" ++
        "\nFirst " ++ toString previewLines ++ " lines:\n" ++
        String.intercalate "\n" (lines.take 20),
      chunk_index := 0,
      keywords := [fileName, language, "code", "overview"] }
  let rest := match patterns? with
    | some pats => chunk_by_elements pats n lines language fileName
    | none => chunk_by_lines n lines fileName 1
  overview :: rest

theorem chunk_by_lines_indices (n : Nat) (lines : List String) (fileName : String)
    (startIdx : Nat) :
    (chunk_by_lines n lines fileName startIdx).map (fun c => c.chunk_index)
      = (List.range (chunk_by_lines n lines fileName startIdx).length).map
          (fun i => startIdx + i) := by
  simp only [chunk_by_lines, List.map_map, List.length_map, List.enum_length]
  have h : ((windows n 0 lines).enum.map (fun p => startIdx + p.1))
      = ((windows n 0 lines).enum.map Prod.fst).map (fun i => startIdx + i) := by
    rw [List.map_map]; rfl
  calc (windows n 0 lines).enum.map _
      = (windows n 0 lines).enum.map (fun p => startIdx + p.1) := rfl
    _ = ((windows n 0 lines).enum.map Prod.fst).map (fun i => startIdx + i) := h
    _ = (List.range (windows n 0 lines).length).map (fun i => startIdx + i) := by
        rw [List.enum_map_fst]

theorem chunk_by_elements_indices (patterns : PatternSet) (n : Nat)
    (lines : List String) (language fileName : String) :
    (chunk_by_elements patterns n lines language fileName).map (fun c => c.chunk_index)
      = (List.range (chunk_by_elements patterns n lines language fileName).length).map
          (fun i => 1 + i) := by
  simp only [chunk_by_elements]
  split
  · rw [chunk_by_lines_indices]
  · rename_i hne
    simp only [List.map_map, List.length_map, List.enum_length]
    have h : ((findElements patterns lines).enum.map (fun p => p.1 + 1))
        = ((findElements patterns lines).enum.map Prod.fst).map (fun i => i + 1) := by
      rw [List.map_map]; rfl
    calc (findElements patterns lines).enum.map _
        = (findElements patterns lines).enum.map (fun p => p.1 + 1) := rfl
      _ = ((findElements patterns lines).enum.map Prod.fst).map (fun i => i + 1) := h
      _ = (List.range (findElements patterns lines).length).map (fun i => i + 1) := by
          rw [List.enum_map_fst]
      _ = (List.range (findElements patterns lines).length).map (fun i => 1 + i) := by
          simp [Nat.add_comm]

/-- C4: on every chunking path of the code processor (syntax elements,
fallback to line windows when no element matched, line windows for
languages without a pattern set), the `chunk_index` values of the
produced chunks are exactly `0, 1, ..., N-1` in list order. -/
theorem code_chunk_indices_dense (patterns? : Option PatternSet) (n : Nat)
    (code language fileName : String) (_hn : 0 < n) :
    (create_chunks_from_code patterns? n code language fileName).map
        (fun c => c.chunk_index)
      = List.range (create_chunks_from_code patterns? n code language fileName).length := by
  simp only [create_chunks_from_code]
  cases patterns? with
  | some pats =>
    simp only [List.map_cons, List.length_cons]
    rw [chunk_by_elements_indices pats n (splitLines code) language fileName]
    rw [List.range_succ_eq_map]
    congr 1
    simp [Nat.add_comm]
  | none =>
    simp only [List.map_cons, List.length_cons]
    rw [chunk_by_lines_indices]
    rw [List.range_succ_eq_map]
    congr 1
    simp [Nat.add_comm]

/-- Witness for C4 at a concrete input: a two-function "python-like"
pattern set over a five-line file, window size 100. -/
theorem code_chunk_indices_dense_witness :
    0 < 100 ∧
      (create_chunks_from_code
          (some [("function", fun l => if l = "def f():" then some "f" else none)])
          100 "import os\ndef f():\n    return 1\ndef g():\n    return 2"
          "python" "m.py").map (fun c => c.chunk_index)
        = List.range (create_chunks_from_code
            (some [("function", fun l => if l = "def f():" then some "f" else none)])
            100 "import os\ndef f():\n    return 1\ndef g():\n    return 2"
            "python" "m.py").length :=
  ⟨by decide,
    code_chunk_indices_dense
      (some [("function", fun l => if l = "def f():" then some "f" else none)])
      100 "import os\ndef f():\n    return 1\ndef g():\n    return 2"
      "python" "m.py" (by decide)⟩

/-! ## Structured data processor: `StructuredDataProcessor`
    (src/opencontext/context_processing/processor/structured_data_processor.py)

Parsed JSON/YAML documents are modelled by the mutual inductive `JValue`
(whose list and object payloads are the mutual `JList`/`JFields` so that
all functions below are structurally recursive and kernel-evaluable).
Python floats inside documents are not modelled: no claim exercises
them. -/

mutual
inductive JValue where
  | null
  | bool (b : Bool)
  | int (n : Int)
  | str (s : String)
  | arr (items : JList)
  | obj (fields : JFields)
deriving DecidableEq
inductive JList where
  | nil
  | cons (x : JValue) (xs : JList)
deriving DecidableEq
inductive JFields where
  | nil
  | cons (k : String) (v : JValue) (fs : JFields)
deriving DecidableEq
end

def JList.toList : JList → List JValue
  | .nil => []
  | .cons x xs => x :: xs.toList

def JFields.toList : JFields → List (String × JValue)
  | .nil => []
  | .cons k v fs => (k, v) :: fs.toList

/-- Python `type(data).__name__` on a parsed JSON/YAML value. -/
def typeName : JValue → String
  | .null => "NoneType"
  | .bool _ => "bool"
  | .int _ => "int"
  | .str _ => "str"
  | .arr _ => "list"
  | .obj _ => "dict"

/-- Python `f"{value}"` on a scalar value (the only use site,
`_chunk_dict`'s else-branch, is reached only for non-dict non-list
values; the `arr`/`obj` cases are unreachable there). -/
def pyStrScalar : JValue → String
  | .null => "None"
  | .bool true => "True"
  | .bool false => "False"
  | .int n => toString n
  | .str s => s
  | .arr _ => ""
  | .obj _ => ""

def spaces (n : Nat) : String := String.mk (List.replicate n ' ')

/-! `json.dumps(v, indent=2, ensure_ascii=False)` with the default
separators `(',', ': ')`: `dumpsVal` renders a value whose closing
bracket sits at indentation `ind`; `dumpsList` and `dumpsFields` render
the comma-newline-separated item lines at indentation `ind`.  String
escaping is not modelled (no claim involves strings needing escapes). -/
mutual
def dumpsVal : JValue → Nat → String
  | .null, _ => "null"
  | .bool true, _ => "true"
  | .bool false, _ => "false"
  | .int n, _ => toString n
  | .str s, _ => "\"" ++ s ++ "\""
  | .arr .nil, _ => "[]"
  | .arr (.cons x xs), ind =>
      "[\n" ++ dumpsList (JList.cons x xs) (ind + 2) ++ "\n" ++ spaces ind ++ "]"
  | .obj .nil, _ => "\x7b\x7d"
  | .obj (.cons k v fs), ind =>
      "\x7b\n" ++ dumpsFields (JFields.cons k v fs) (ind + 2) ++ "\n" ++ spaces ind ++ "\x7d"

def dumpsList : JList → Nat → String
  | .nil, _ => ""
  | .cons x .nil, ind => spaces ind ++ dumpsVal x ind
  | .cons x xs, ind => spaces ind ++ dumpsVal x ind ++ ",\n" ++ dumpsList xs ind

def dumpsFields : JFields → Nat → String
  | .nil, _ => ""
  | .cons k v .nil, ind => spaces ind ++ "\"" ++ k ++ "\": " ++ dumpsVal v ind
  | .cons k v fs, ind =>
      spaces ind ++ "\"" ++ k ++ "\": " ++ dumpsVal v ind ++ ",\n" ++ dumpsFields fs ind
end

/-- `json.dumps(v, indent=2, ensure_ascii=False)` at top level. -/
def jsonDumps (v : JValue) : String := dumpsVal v 0

/-- Python `s[:n] + suffix if len(s) > n else s` (the preview/content
truncation pattern of the structured data processor). -/
def pyTruncate (s : String) (n : Nat) : String :=
  if s.length > n then (s.take n) ++ "\n... (truncated)" else s

/-- `StructuredDataProcessor._chunk_dict` (lines 215-249): one chunk per
top-level key, with a 2000-character-truncated pretty serialization for
mapping/array values and a `path: value` pair for scalar values;
`chunk_index` continues from `idx` (the Python `start_idx + len(chunks)`
counter). -/
def chunk_dict : JFields → String → String → Nat → List Chunk
  | .nil, _, _, _ => []
  | .cons k v fs, path, fileName, idx =>
    let currentPath := if path ≠ "" then path ++ "." ++ k else k
    match v with
    | .obj _ =>
      { text := "Path: " ++ currentPath ++ "\n" ++ "Type: " ++ typeName v ++ "\n" ++
          "Content:\n" ++ pyTruncate (jsonDumps v) 2000 ++ "\n",
        chunk_index := idx,
        keywords := [fileName, k, currentPath, typeName v] } ::
        chunk_dict fs path fileName (idx + 1)
    | .arr _ =>
      { text := "Path: " ++ currentPath ++ "\n" ++ "Type: " ++ typeName v ++ "\n" ++
          "Content:\n" ++ pyTruncate (jsonDumps v) 2000 ++ "\n",
        chunk_index := idx,
        keywords := [fileName, k, currentPath, typeName v] } ::
        chunk_dict fs path fileName (idx + 1)
    | _ =>
      { text := "Path: " ++ currentPath ++ "\n" ++ "Value: " ++ pyStrScalar v ++ "\n",
        chunk_index := idx,
        keywords := [fileName, k, currentPath] } ::
        chunk_dict fs path fileName (idx + 1)

def JList.ofList : List JValue → JList
  | [] => .nil
  | x :: xs => .cons x (JList.ofList xs)

/-- `StructuredDataProcessor._chunk_list` (lines 251-275): batches of
`max_array_items_per_chunk` items, each with the path, index range and a
2000-character-truncated serialization of the batch. -/
def chunk_list (m : Nat) (xs : JList) (path fileName : String) (startIdx : Nat) :
    List Chunk :=
  (windows m 0 xs.toList).enum.map (fun p =>
    { text := "Path: " ++ path ++ "\n" ++
        "Array items [" ++ toString p.2.1 ++ ":" ++
        toString (min (p.2.1 + m) xs.toList.length) ++ "]\n" ++
        "Content:\n" ++ pyTruncate (jsonDumps (.arr (JList.ofList p.2.2))) 2000 ++ "\n",
      chunk_index := startIdx + p.1,
      keywords := [fileName, path, "array",
        "items_" ++ toString p.2.1 ++ "_" ++ toString (p.2.1 + p.2.2.length)] })

/-- `StructuredDataProcessor._create_chunks_from_data` (lines 178-213):
an overview chunk (root type, up to 10 top-level keys, 500-character
preview), then per-key chunks for a mapping root or batch chunks for an
array root.  `m` is `max_array_items_per_chunk` (default 50). -/
def create_chunks_from_data (m : Nat) (data : JValue) (fileName path : String) :
    List Chunk :=
  let overviewText := "File: " ++ fileName ++ "\n" ++ "Type: " ++ typeName data ++ "\n" ++
    (match data with
     | .obj fs =>
        "Top-level keys: " ++
          String.intercalate ", " ((fs.toList.map (fun f => f.1)).take 10) ++ "\n" ++
          (if fs.toList.length > 10 then
            "... and " ++ toString (fs.toList.length - 10) ++ " more keys\n" else "")
     | .arr xs => "Array with " ++ toString xs.toList.length ++ " items\n"
     | _ => "") ++
    "\nPreview:\n" ++ pyTruncate (jsonDumps data) 500 ++ "\n"
  let overview : Chunk :=
    { text := overviewText, chunk_index := 0, keywords := [fileName, "overview", "structure"] }
  overview ::
    (match data with
     | .obj fs => chunk_dict fs path fileName 1
     | .arr xs => chunk_list m xs path fileName 1
     | _ => [])

/-! ### `process` for the three processors

`RawContextProperties` carries the object id and the (optional) content
path; the remaining fields do not affect any claim.  A `ProcessedContext`
is modelled by its id and chunks: `properties` and `extracted_data` are
built from metadata that no claim mentions. -/

structure RawCtx where
  object_id : String
  content_path : Option String
deriving DecidableEq

structure ProcessedContextS where
  id : String
  chunks : List Chunk
deriving DecidableEq

/-- Python `Path(p).name`. -/
def basename (p : String) : String := (p.splitOn "/").getLastD p

/-- `StructuredDataProcessor._load_file` (lines 116-129).  `parsed` is the
outcome of `json.load` / `yaml.safe_load` / the per-line JSONL loop on the
file: an exception while opening or parsing becomes `.error` (caught
inside `_load_file`, which returns `None`), and a document whose root is
JSON/YAML `null` parses to Python `None` — indistinguishable from the
failure `None`. -/
def structured_load_file (parsed : Except String JValue) : Option JValue :=
  match parsed with
  | .error _ => none
  | .ok .null => none
  | .ok v => some v

/-- `StructuredDataProcessor._create_processed_context` (lines 277-343):
`None` when there are no chunks, otherwise a context with the raw
object's id. -/
def structured_create_processed_context (raw : RawCtx) (chunks : List Chunk) :
    Option ProcessedContextS :=
  if chunks.isEmpty then none else some { id := raw.object_id, chunks := chunks }

/-- The body of `StructuredDataProcessor.process` (lines 84-114) inside
its `try`: `Path(context.content_path)` raises on a missing path; a
`None` load result returns `[]`; otherwise chunks are built and a single
context is returned when chunk creation produced any chunks. -/
def structured_process_body (m : Nat) (raw : RawCtx)
    (parsed : Except String JValue) : Except String (List ProcessedContextS) := do
  match raw.content_path with
  | none => throw "TypeError: content_path is None"
  | some p =>
    match structured_load_file parsed with
    | none => pure []
    | some data =>
      let chunks := create_chunks_from_data m data (basename p) ""
      match structured_create_processed_context raw chunks with
      | some pc => pure [pc]
      | none => pure []

/-- `StructuredDataProcessor.process`: the body wrapped in
`try/except Exception: return []`. -/
def structured_process (m : Nat) (raw : RawCtx)
    (parsed : Except String JValue) : List ProcessedContextS :=
  match structured_process_body m raw parsed with
  | .ok l => l
  | .error _ => []

/-- The document `{"a": 1, "b": {"c": [1, 2, 3]}}` of C7. -/
def dataC7 : JValue :=
  .obj (.cons "a" (.int 1)
    (.cons "b" (.obj (.cons "c"
      (.arr (.cons (.int 1) (.cons (.int 2) (.cons (.int 3) .nil)))) .nil)) .nil))

/-- C7: on the mapping `{"a": 1, "b": {"c": [1,2,3]}}` the structured-data
processor produces exactly 3 chunks: the overview chunk at index 0, a
scalar `path: value` chunk for path `a`, and a nested chunk for path `b`
containing the pretty-printed serialization of `{"c": [1,2,3]}` (short
enough that the 2000-character truncation leaves it intact). -/
theorem structured_chunks_C7 :
    (create_chunks_from_data 50 dataC7 "data.json" "").map (fun c => c.chunk_index)
        = [0, 1, 2] ∧
      (create_chunks_from_data 50 dataC7 "data.json" "").map (fun c => c.text)
        = ["File: data.json\nType: dict\nTop-level keys: a, b\n\nPreview:\n" ++
             jsonDumps dataC7 ++ "\n",
           "Path: a\nValue: 1\n",
           "Path: b\nType: dict\nContent:\n\x7b\n  \"c\": [\n    1,\n    2,\n    3\n  ]\n\x7d\n"] := by
  constructor
  · rfl
  · rfl

/-- C9: a `.yaml`/`.yml` (or `.json`) document whose root parses to
`null` — e.g. an empty YAML file or one holding only comments — makes
`_load_file` return Python `None` exactly as a load failure does, so
`process` returns the empty list even though the file is valid YAML. -/
theorem structured_process_null_root (m : Nat) (oid p : String)
    (parseError : String) :
    structured_process m { object_id := oid, content_path := some p } (.ok .null) = [] ∧
      structured_process m { object_id := oid, content_path := some p }
          (.error parseError) = [] := by
  constructor
  · rfl
  · rfl

/-! ## Excel processor: `ExcelProcessor`
    (src/opencontext/context_processing/processor/excel_processor.py)

A loaded workbook is a list of sheets in `workbook.sheetnames` order.
Each sheet carries the openpyxl-level data the processor reads: extents,
dimensions, named tables, the outcome of the comment-extraction
iteration over all cells (`cell.comment` access can raise — openpyxl
comment parsing failures surface there), the pandas DataFrame obtained
by `pd.read_excel` for the sheet, and the sheet's cell values used by
formula extraction (in row-major grid order, as `iter`ated by the
source).  pandas rendering (`df.to_string`, dtypes, numeric summaries)
is abstracted into pre-rendered fields, since no claim depends on their
contents.  The boolean configuration flags keep their defaults
(`extract_formulas`, `extract_comments`, `detect_tables` all true). -/

structure DF where
  columns : List String
  dtypes : List String
  numericSummaries : List String
  rows : List (List String)
deriving DecidableEq

/-- pandas `DataFrame.empty`: true when any axis has length 0. -/
def DF.empty (df : DF) : Bool := df.rows.isEmpty || df.columns.isEmpty

structure Sheet where
  name : String
  maxRow : Nat
  maxColumn : Nat
  dimensions : String
  tables : List (String × String)
  commentsResult : Except String (List (String × String))
  df : DF
  cells : List (Nat × Nat × String)

/-- `openpyxl.utils.get_column_letter`: 1-based bijective base-26. -/
def columnLetter (n : Nat) : String :=
  if n = 0 then ""
  else columnLetter ((n - 1) / 26) ++ String.singleton (Char.ofNat (65 + (n - 1) % 26))
termination_by n
decreasing_by
  rename_i h
  have h1 : (n - 1) / 26 ≤ n - 1 := Nat.div_le_self _ _
  omega

/-- `ExcelProcessor._extract_formulas_from_range` (lines 233-246): for
rows `start_row .. min(end_row, max_row)` and columns `1 .. max_column`,
collect `"{letter}{row}: {value}"` for every cell whose value is a
string starting with `=`. -/
def extract_formulas_from_range (s : Sheet) (startRow endRow : Nat) : List String :=
  (s.cells.filter (fun c =>
      startRow ≤ c.1 ∧ c.1 < min (endRow + 1) (s.maxRow + 1) ∧
      1 ≤ c.2.1 ∧ c.2.1 ≤ s.maxColumn ∧ c.2.2.startsWith "=")).map
    (fun c => columnLetter c.2.1 ++ toString c.1 ++ ": " ++ c.2.2)

/-- Abstraction of `df.to_string(index=False)` on a row batch. -/
def dfRowsToString (columns : List String) (rows : List (List String)) : String :=
  String.intercalate "  " columns ++ "\n" ++
    String.intercalate "\n" (rows.map (String.intercalate "  "))

/-- `ExcelProcessor._extract_sheet_metadata` (lines 127-157).  The base
fields and the table detection never fail; the comment loop re-raises
whatever `commentsResult` carries (the source has no `try` around it);
`comments` is included only when non-empty (`if comments:`). -/
structure SheetMeta where
  file_name : String
  file_path : String
  sheet_name : String
  max_row : Nat
  max_column : Nat
  dimensions : String
  tables : List (String × String)
  comments : Option (List (String × String))
deriving DecidableEq

def extract_sheet_metadata (s : Sheet) (filePath : String) :
    Except String SheetMeta := do
  let comments ← s.commentsResult
  pure { file_name := basename filePath, file_path := filePath,
         sheet_name := s.name, max_row := s.maxRow, max_column := s.maxColumn,
         dimensions := s.dimensions, tables := s.tables,
         comments := if comments.isEmpty then none else some comments }

/-- `ExcelProcessor._create_chunks_from_sheet` (lines 174-231): a header
chunk at index 0 when the DataFrame is non-empty, then row batches of
`m = max_rows_per_chunk` rows, each with its formula lines; `chunk_index`
is always the running `len(chunks)`. -/
def create_chunks_from_sheet (m : Nat) (s : Sheet) : List Chunk :=
  let headerChunks : List Chunk :=
    if ¬ s.df.empty then
      [{ text := "Sheet: " ++ s.name ++ "\n" ++
           "Columns: " ++ String.intercalate ", " s.df.columns ++ "\n" ++
           "Rows: " ++ toString s.df.rows.length ++ ", Columns: " ++
             toString s.df.columns.length ++ "\n" ++
           "\nData Types:\n" ++
             String.intercalate "\n"
               ((s.df.columns.zip s.df.dtypes).map (fun p => p.1 ++ ": " ++ p.2)) ++ "\n" ++
           (if ¬ s.df.numericSummaries.isEmpty then
             "\nNumeric Summary:\n" ++
               String.join (s.df.numericSummaries.map (fun line => line ++ "\n"))
            else ""),
         chunk_index := 0,
         keywords := [s.name, "header", "metadata"] }]
    else []
  headerChunks ++
    (windows m 0 s.df.rows).enum.map (fun p =>
      let formulas := extract_formulas_from_range s (p.2.1 + 2) (p.2.1 + p.2.2.length + 1)
      { text := "Sheet: " ++ s.name ++ " (Rows " ++ toString (p.2.1 + 1) ++ " to " ++
          toString (p.2.1 + p.2.2.length) ++ ")\n" ++
          dfRowsToString s.df.columns p.2.2 ++ "\n" ++
          (if ¬ formulas.isEmpty then "\nFormulas:\n" ++ String.intercalate "\n" formulas
           else ""),
        chunk_index := headerChunks.length + p.1,
        keywords := [s.name, "rows_" ++ toString (p.2.1 + 1) ++ "_to_" ++
            toString (p.2.1 + p.2.2.length)] ++ s.df.columns.take 5 })

/-- `ExcelProcessor._create_processed_context` (lines 248-305): `None`
when there are no chunks, otherwise a context with id
`f"{object_id}_{sheet_name}"`. -/
def excel_create_processed_context (raw : RawCtx) (chunks : List Chunk)
    (sheetName : String) : Option ProcessedContextS :=
  if chunks.isEmpty then none
  else some { id := raw.object_id ++ "_" ++ sheetName, chunks := chunks }

/-- The per-sheet step of `ExcelProcessor.process`'s loop (lines 100-118):
metadata extraction (which can raise), chunk creation, and appending the
sheet's context when one was produced. -/
def excel_sheet_step (m : Nat) (raw : RawCtx) (p : String)
    (acc : List ProcessedContextS) (s : Sheet) :
    Except String (List ProcessedContextS) := do
  let _meta ← extract_sheet_metadata s p
  let chunks := create_chunks_from_sheet m s
  pure (match excel_create_processed_context raw chunks s.name with
        | some pc => acc ++ [pc]
        | none => acc)

/-- The body of `ExcelProcessor.process` (lines 88-125) inside its `try`:
raise on a missing content path, propagate a workbook load failure, then
run the sheet loop. -/
def excel_process_body (m : Nat) (raw : RawCtx)
    (load : Except String (List Sheet)) : Except String (List ProcessedContextS) := do
  match raw.content_path with
  | none => throw "TypeError: content_path is None"
  | some p =>
    let sheets ← load
    sheets.foldlM (excel_sheet_step m raw p) []

/-- `ExcelProcessor.process`: the body wrapped in
`try/except Exception: return []`. -/
def excel_process (m : Nat) (raw : RawCtx) (load : Except String (List Sheet)) :
    List ProcessedContextS :=
  match excel_process_body m raw load with
  | .ok l => l
  | .error _ => []


/-! ### Excel theorems (C2, C3) -/

theorem create_chunks_from_sheet_eq_nil_iff (m : Nat) (s : Sheet) (hm : 0 < m) :
    (create_chunks_from_sheet m s = []) ↔ (s.df.rows = []) := by
  obtain ⟨name, mr, mc, dims, tbls, com, df, cells⟩ := s
  obtain ⟨cols, dts, sums, rows⟩ := df
  simp only [create_chunks_from_sheet, DF.empty]
  cases rows with
  | nil =>
    simp [windows, Nat.div_eq_of_lt (show m - 1 < m by omega)]
  | cons r rs =>
    constructor
    · intro h
      exfalso
      rcases List.append_eq_nil.mp h with ⟨_, h2⟩
      have hlen : 0 < ((r :: rs).length + m - 1) / m := by
        apply Nat.div_pos
        · simp only [List.length_cons]
          omega
        · exact hm
      have h3 : ((r :: rs).length + m - 1) / m = 0 := by
        have h4 : windows m 0 (r :: rs) = [] := by
          have h5 := congrArg List.length h2
          simp only [List.length_map, List.enum_length, List.length_nil] at h5
          exact List.eq_nil_of_length_eq_zero h5
        have h6 := congrArg List.length h4
        simp only [windows, List.length_map, List.length_range, List.length_nil] at h6
        exact h6
      omega
    · intro h; cases h

theorem excel_sheet_step_ok (m : Nat) (raw : RawCtx) (p : String)
    (acc : List ProcessedContextS) (s : Sheet) (cs : List (String × String))
    (hc : s.commentsResult = .ok cs) :
    excel_sheet_step m raw p acc s =
      .ok (match excel_create_processed_context raw (create_chunks_from_sheet m s) s.name with
           | some pc => acc ++ [pc]
           | none => acc) := by
  simp [excel_sheet_step, extract_sheet_metadata, hc, Except.bind]

theorem excel_sheet_step_error (m : Nat) (raw : RawCtx) (p : String)
    (acc : List ProcessedContextS) (s : Sheet) (e : String)
    (he : s.commentsResult = .error e) :
    excel_sheet_step m raw p acc s = .error e := by
  simp [excel_sheet_step, extract_sheet_metadata, he, Except.bind]

theorem excel_foldlM_ok (m : Nat) (raw : RawCtx) (p : String) (hm : 0 < m)
    (sheets : List Sheet)
    (hc : ∀ s ∈ sheets, ∃ cs, s.commentsResult = .ok cs)
    (acc : List ProcessedContextS) :
    sheets.foldlM (excel_sheet_step m raw p) acc =
      .ok (acc ++ (sheets.filter (fun s => ¬ s.df.rows.isEmpty)).map
        (fun s => { id := raw.object_id ++ "_" ++ s.name,
                    chunks := create_chunks_from_sheet m s })) := by
  induction sheets generalizing acc with
  | nil =>
    simp only [List.foldlM, List.filter_nil, List.map_nil, List.append_nil]
    rfl
  | cons s ss ih =>
    obtain ⟨cs, hcs⟩ := hc s (List.mem_cons_self s ss)
    have hstep := excel_sheet_step_ok m raw p acc s cs hcs
    have hrest : ∀ t ∈ ss, ∃ c, t.commentsResult = .ok c :=
      fun t ht => hc t (List.mem_cons_of_mem s ht)
    have hcons : (s :: ss).foldlM (excel_sheet_step m raw p) acc =
        excel_sheet_step m raw p acc s >>=
          (fun acc2 => ss.foldlM (excel_sheet_step m raw p) acc2) := by
      rfl
    have hbind : ∀ (l : List ProcessedContextS),
        ((Except.ok l : Except String (List ProcessedContextS)) >>=
          fun acc2 => ss.foldlM (excel_sheet_step m raw p) acc2)
          = ss.foldlM (excel_sheet_step m raw p) l := fun l => rfl
    rw [hcons, hstep]
    by_cases hrows : s.df.rows = []
    · have hchunks : create_chunks_from_sheet m s = [] :=
        (create_chunks_from_sheet_eq_nil_iff m s hm).mpr hrows
      have hnone : excel_create_processed_context raw (create_chunks_from_sheet m s) s.name
          = none := by
        simp [excel_create_processed_context, hchunks]
      rw [hnone, hbind, ih hrest acc]
      have hfilt : (s :: ss).filter (fun t => ¬ t.df.rows.isEmpty)
          = ss.filter (fun t => ¬ t.df.rows.isEmpty) := by
        rw [List.filter_cons]
        simp [hrows]
      rw [hfilt]
    · have hchunks : create_chunks_from_sheet m s ≠ [] := by
        intro h
        exact hrows ((create_chunks_from_sheet_eq_nil_iff m s hm).mp h)
      have hsome : excel_create_processed_context raw (create_chunks_from_sheet m s) s.name
          = some { id := raw.object_id ++ "_" ++ s.name,
                   chunks := create_chunks_from_sheet m s } := by
        simp [excel_create_processed_context, hchunks]
      rw [hsome, hbind, ih hrest]
      have hfilt : (s :: ss).filter (fun t => ¬ t.df.rows.isEmpty)
          = s :: ss.filter (fun t => ¬ t.df.rows.isEmpty) := by
        rw [List.filter_cons]
        simp [hrows]
      rw [hfilt]
      simp [List.append_assoc]

theorem excel_foldlM_error (m : Nat) (raw : RawCtx) (p : String)
    (sheets : List Sheet) (s : Sheet) (e : String)
    (hs : s ∈ sheets) (he : s.commentsResult = .error e)
    (acc : List ProcessedContextS) :
    ∃ e2, sheets.foldlM (excel_sheet_step m raw p) acc = .error e2 := by
  induction sheets generalizing acc with
  | nil => cases hs
  | cons a as ih =>
    have hcons : (a :: as).foldlM (excel_sheet_step m raw p) acc =
        excel_sheet_step m raw p acc a >>=
          (fun acc2 => as.foldlM (excel_sheet_step m raw p) acc2) := rfl
    rw [hcons]
    cases hstep : excel_sheet_step m raw p acc a with
    | error e3 => exact ⟨e3, rfl⟩
    | ok acc2 =>
      rcases List.mem_cons.mp hs with heq | hmem
      · subst heq
        rw [excel_sheet_step_error m raw p acc s e he] at hstep
        cases hstep
      · exact ih hmem acc2

/-- A raw context whose content path is set (as `can_process` requires). -/
def rawX : RawCtx := { object_id := "obj1", content_path := some "/tmp/book.xlsx" }

/-- A sheet whose pandas DataFrame has no rows (e.g. a blank sheet). -/
def sheetEmptyRows : Sheet :=
  { name := "Sheet1", maxRow := 1, maxColumn := 1, dimensions := "A1:A1",
    tables := [], commentsResult := .ok [],
    df := { columns := [], dtypes := [], numericSummaries := [], rows := [] },
    cells := [] }

/-- A sheet with one data row. -/
def sheetOneRow : Sheet :=
  { name := "Data", maxRow := 2, maxColumn := 1, dimensions := "A1:A2",
    tables := [], commentsResult := .ok [],
    df := { columns := ["A"], dtypes := ["int64"],
            numericSummaries := ["A: min=1, max=1, mean=1.00"], rows := [["1"]] },
    cells := [] }

/-- C2 counterexample: a workbook that loads with S = 1 sheets, whose one
sheet has an empty DataFrame, yields 0 ProcessedContext objects, not 1:
`_create_chunks_from_sheet` emits no chunks for it, so
`_create_processed_context` returns `None` and the sheet is skipped. -/
theorem excel_sheet_count_counterexample :
    (excel_process 100 rawX (.ok [sheetEmptyRows])).length = 0 ∧
      [sheetEmptyRows].length = 1 := by
  exact ⟨rfl, rfl⟩

/-- C2 (amended): for a workbook that `process` accepts and loads and in
which every sheet's comment extraction succeeds, `process` returns one
ProcessedContext per sheet whose DataFrame has at least one row, in
sheet order, each with id `f"{object_id}_{sheet_name}"`; sheets with a
row-less DataFrame are skipped. -/
theorem excel_process_ids (m : Nat) (raw : RawCtx) (p : String)
    (sheets : List Sheet) (hm : 0 < m) (hp : raw.content_path = some p)
    (hc : ∀ s ∈ sheets, ∃ cs, s.commentsResult = .ok cs) :
    (excel_process m raw (.ok sheets)).map (fun pc => pc.id)
      = (sheets.filter (fun s => ¬ s.df.rows.isEmpty)).map
          (fun s => raw.object_id ++ "_" ++ s.name) := by
  have hbody : excel_process_body m raw (.ok sheets)
      = sheets.foldlM (excel_sheet_step m raw p) [] := by
    unfold excel_process_body
    rw [hp]
    rfl
  unfold excel_process
  rw [hbody, excel_foldlM_ok m raw p hm sheets hc []]
  simp only [List.nil_append, List.map_map]
  rfl

/-- Witness for C2 (amended) on a concrete two-sheet workbook: the empty
sheet is skipped and the data sheet's context id is `obj1_Data`. -/
theorem excel_process_ids_witness :
    0 < 100 ∧
      (excel_process 100 rawX (.ok [sheetEmptyRows, sheetOneRow])).map (fun pc => pc.id)
        = ([sheetEmptyRows, sheetOneRow].filter (fun s => ¬ s.df.rows.isEmpty)).map
            (fun s => rawX.object_id ++ "_" ++ s.name) :=
  ⟨by decide,
    excel_process_ids 100 rawX "/tmp/book.xlsx" [sheetEmptyRows, sheetOneRow]
      (by decide) rfl
      (by
        intro s hs
        simp only [List.mem_cons, List.not_mem_nil, or_false] at hs
        rcases hs with h | h
        · exact ⟨[], by subst h; rfl⟩
        · exact ⟨[], by subst h; rfl⟩)⟩

/-- A sheet with data whose cell-comment extraction raises. -/
def sheetBadComments : Sheet :=
  { name := "Sheet1", maxRow := 2, maxColumn := 1, dimensions := "A1:A2",
    tables := [], commentsResult := .error "comment extraction failure",
    df := { columns := ["A"], dtypes := ["int64"], numericSummaries := [],
            rows := [["1"]] },
    cells := [] }

/-- C3 counterexample: a comment-extraction failure on a sheet with data
does not leave the sheet's metadata comment-less — it propagates out of
`_extract_sheet_metadata` (which has no `try` around the comment loop)
and `process` returns `[]`: the sheet's ProcessedContext is not
emitted. -/
theorem excel_comment_failure_counterexample :
    excel_process 100 rawX (.ok [sheetBadComments]) = [] ∧
      extract_sheet_metadata sheetBadComments "/tmp/book.xlsx"
        = .error "comment extraction failure" := by
  exact ⟨rfl, rfl⟩

/-- C3 (amended): a failure raised while extracting cell-level comments
aborts the entire `process` call: the exception reaches the top-level
handler of `process`, which returns the empty list, so no sheet of the
workbook yields a ProcessedContext. -/
theorem excel_comment_failure_aborts (m : Nat) (raw : RawCtx) (p : String)
    (sheets : List Sheet) (s : Sheet) (e : String)
    (hp : raw.content_path = some p) (hs : s ∈ sheets)
    (he : s.commentsResult = .error e) :
    excel_process m raw (.ok sheets) = [] := by
  obtain ⟨e2, hfold⟩ := excel_foldlM_error m raw p sheets s e hs he []
  have hbody : excel_process_body m raw (.ok sheets) = .error e2 := by
    unfold excel_process_body
    rw [hp]
    exact hfold
  unfold excel_process
  rw [hbody]

/-- Witness for C3 (amended) on the concrete failing workbook. -/
theorem excel_comment_failure_aborts_witness :
    sheetBadComments ∈ [sheetBadComments] ∧
      excel_process 100 rawX (.ok [sheetBadComments]) = [] :=
  ⟨List.mem_singleton.mpr rfl,
    excel_comment_failure_aborts 100 rawX "/tmp/book.xlsx" [sheetBadComments]
      sheetBadComments "comment extraction failure" rfl
      (List.mem_singleton.mpr rfl) rfl⟩

/-! ## `CodeProcessor.process` (lines 138-170) -/

/-- `CodeProcessor.EXTENSION_TO_LANGUAGE` (lines 76-94). -/
def extension_to_language : List (String × String) :=
  [(".py", "python"), (".js", "javascript"), (".jsx", "javascript"),
   (".ts", "javascript"), (".tsx", "javascript"), (".java", "java"),
   (".go", "go"), (".c", "c"), (".cpp", "cpp"), (".h", "c"),
   (".hpp", "cpp"), (".cs", "csharp"), (".rb", "ruby"), (".php", "php"),
   (".swift", "swift"), (".kt", "kotlin"), (".rs", "rust")]

/-- Python `Path(p).suffix`: the final dot-suffix of the file name, empty
for names without a dot and for pure dot-files such as `.bashrc`. -/
def pySuffix (p : String) : String :=
  let name := basename p
  match name.splitOn "." with
  | [] => ""
  | [_] => ""
  | parts =>
    if name.startsWith "." ∧ parts.length == 2 then ""
    else "." ++ parts.getLastD ""

/-- `CodeProcessor._detect_language` (lines 172-175). -/
def detect_language (p : String) : String :=
  (extension_to_language.lookup (pySuffix p).toLower).getD "unknown"

/-- `CodeProcessor._create_processed_context` (lines 311-382): `None`
when there are no chunks, otherwise a context with the raw object's
id. -/
def code_create_processed_context (raw : RawCtx) (chunks : List Chunk) :
    Option ProcessedContextS :=
  if chunks.isEmpty then none else some { id := raw.object_id, chunks := chunks }

/-- The body of `CodeProcessor.process` inside its `try`:
`Path(context.content_path)` raises on a missing path, the file read can
raise, the rest is pure.  `patternsFor` is the abstract
`LANGUAGE_PATTERNS` table: `some pats` exactly for languages with a
registered pattern set. -/
def code_process_body (patternsFor : String → Option PatternSet) (n : Nat)
    (raw : RawCtx) (readResult : Except String String) :
    Except String (List ProcessedContextS) := do
  match raw.content_path with
  | none => throw "TypeError: content_path is None"
  | some p =>
    let code ← readResult
    let language := detect_language p
    let chunks := create_chunks_from_code (patternsFor language) n code language (basename p)
    match code_create_processed_context raw chunks with
    | some pc => pure [pc]
    | none => pure []

/-- `CodeProcessor.process`: the body wrapped in
`try/except Exception: return []`. -/
def code_process (patternsFor : String → Option PatternSet) (n : Nat)
    (raw : RawCtx) (readResult : Except String String) : List ProcessedContextS :=
  match code_process_body patternsFor n raw readResult with
  | .ok l => l
  | .error _ => []

/-- C5: none of the three processors lets an exception cross its
`process` boundary: whenever the body of `process` raises (unreadable
file, malformed workbook, missing path, comment-extraction failure, …),
the `except Exception` handler returns the empty list.  `process` itself
is a total function by construction. -/
theorem processors_return_empty_on_failure :
    (∀ patternsFor n raw readResult e,
        code_process_body patternsFor n raw readResult = .error e →
          code_process patternsFor n raw readResult = []) ∧
      (∀ m raw load e,
        excel_process_body m raw load = .error e →
          excel_process m raw load = []) ∧
      (∀ m raw parsed e,
        structured_process_body m raw parsed = .error e →
          structured_process m raw parsed = []) := by
  refine ⟨?_, ?_, ?_⟩
  · intro patternsFor n raw readResult e h
    unfold code_process
    rw [h]
  · intro m raw load e h
    unfold excel_process
    rw [h]
  · intro m raw parsed e h
    unfold structured_process
    rw [h]

/-- A raw context without a content path: `Path(None)` raises inside
every processor's `try`. -/
def rawNoPath : RawCtx := { object_id := "o", content_path := none }

/-- Witness for C5: each processor, on a concrete failing input, returns
`[]`. -/
theorem processors_return_empty_on_failure_witness :
    code_process (fun _ => none) 100 rawNoPath (.ok "print(1)") = [] ∧
      excel_process 100 rawNoPath (.ok []) = [] ∧
      structured_process 50 rawNoPath (.ok .null) = [] :=
  ⟨processors_return_empty_on_failure.1 (fun _ => none) 100 rawNoPath (.ok "print(1)")
      "TypeError: content_path is None" rfl,
    processors_return_empty_on_failure.2.1 100 rawNoPath (.ok [])
      "TypeError: content_path is None" rfl,
    processors_return_empty_on_failure.2.2 50 rawNoPath (.ok .null)
      "TypeError: content_path is None" rfl⟩

/-! ## Enhanced search service: `EnhancedSearchService`
    (src/opencontext/context_processing/enhanced_search_service.py)

A storage candidate is modelled by the fields of the returned record the
service reads; `Option` captures a missing dictionary key (read through
`.get`).  The storage capability is a function
`query → top_k → context_types → Except String (List SR)`: a raised
exception is `.error`.  `datetime` values are modelled by integer
timestamps at day granularity (only their order and parse success
matter), and `datetime.fromisoformat` by a parser that succeeds exactly
on non-empty all-digit strings — an order-preserving abstraction of ISO
timestamps. -/

structure SRMeta where
  file_extension : Option String
  tags : List String
  created_time : Option String
  importance : Option Int
  context_type : Option String
deriving DecidableEq

structure SR where
  id : Option String
  distance : Option ℚ
  metadata : SRMeta
deriving DecidableEq

/-- A search result enhanced with `relevance_score` and `importance`
(lines 112-116). -/
structure ESR where
  base : SR
  relevance_score : ℚ
  importance : Int
deriving DecidableEq

def Storage : Type := String → Nat → Option (List String) → Except String (List SR)

/-- Python truthiness of an optional list argument (`if file_types:`,
`if tags:`): false for both `None` and `[]`. -/
def optTruthy {α : Type} : Option (List α) → Bool
  | none => false
  | some l => ¬ l.isEmpty

/-- Python `str.lstrip('.')`. -/
def lstripDots (s : String) : String := String.mk (s.data.dropWhile (fun c => c = '.'))

/-- `datetime.fromisoformat`, abstracted: parses non-empty all-digit
strings to their numeric value and fails on everything else. -/
def fromisoformat (s : String) : Option Int :=
  if s ≠ "" ∧ s.data.all Char.isDigit then
    some (s.data.foldl (fun acc c => acc * 10 + (c.toNat - 48 : Int)) 0)
  else none

/-- The date filter of `search` (lines 98-109): executed only when a
bound is given; a missing or unparseable `created_time` passes
(`except: pass`). -/
def dateExcluded (created : Option String) (dateFrom dateTo : Option Int) : Bool :=
  match created with
  | none => false
  | some s =>
    if s = "" then false
    else
      match fromisoformat s with
      | none => false
      | some dt =>
        (match dateFrom with | some f => dt < f | none => false) ||
          (match dateTo with | some t => t < dt | none => false)

/-- Stable insertion used to model Python's stable `list.sort(...,
reverse=True)`: `gt a b` means `a`'s key is strictly greater, and an
element is inserted after every earlier element whose key is not
strictly smaller. -/
def insertDescStable {α : Type} (gt : α → α → Bool) (x : α) : List α → List α
  | [] => [x]
  | y :: ys => if gt y x then y :: insertDescStable gt x ys else x :: y :: ys

def sortDescStable {α : Type} (gt : α → α → Bool) : List α → List α
  | [] => []
  | x :: xs => insertDescStable gt x (sortDescStable gt xs)

theorem mem_insertDescStable {α : Type} (gt : α → α → Bool) (x a : α) (l : List α) :
    a ∈ insertDescStable gt x l ↔ a = x ∨ a ∈ l := by
  induction l with
  | nil => simp [insertDescStable]
  | cons y ys ih =>
    simp only [insertDescStable]
    split
    · simp only [List.mem_cons, ih]
      tauto
    · simp only [List.mem_cons]

theorem mem_sortDescStable {α : Type} (gt : α → α → Bool) (a : α) (l : List α) :
    a ∈ sortDescStable gt l ↔ a ∈ l := by
  induction l with
  | nil => simp [sortDescStable]
  | cons x xs ih =>
    simp only [sortDescStable, mem_insertDescStable, ih, List.mem_cons]

/-- The post-fetch filter of `search` (lines 77-118): drop a candidate
when `result.get("distance", 1.0) < min_relevance` (note: the raw
distance, not the relevance score, is compared), apply the
file-type / tag / date filters, and enhance the survivors. -/
def searchFilter (file_types tags : Option (List String))
    (date_from date_to : Option Int) (min_relevance : ℚ) (results : List SR) :
    List ESR :=
  results.filterMap (fun r =>
    if (r.distance.getD 1) < min_relevance then none
    else if optTruthy file_types ∧
        ¬ (file_types.getD []).contains (lstripDots (r.metadata.file_extension.getD ""))
      then none
    else if optTruthy tags ∧
        ¬ (tags.getD []).any (fun t => r.metadata.tags.contains t)
      then none
    else if (date_from.isSome ∨ date_to.isSome) ∧
        dateExcluded r.metadata.created_time date_from date_to
      then none
    else some { base := r, relevance_score := 1 - r.distance.getD 0,
                importance := r.metadata.importance.getD 50 })

/-- `EnhancedSearchService.search` (lines 30-135): fetch `2*top_k`
candidates (pre-filtered by `context_types` only), filter and enhance
in-process, sort by the requested policy, truncate to `top_k`; any
exception — in the model, only a storage failure — yields `[]`. -/
def search (storage : Storage) (query : String) (top_k : Nat)
    (context_types file_types tags : Option (List String))
    (date_from date_to : Option Int) (min_relevance : ℚ) (sort_by : String) :
    List ESR :=
  match storage query (top_k * 2) context_types with
  | .error _ => []
  | .ok results =>
    if results.isEmpty then []
    else
      let filtered := searchFilter file_types tags date_from date_to min_relevance results
      let sorted :=
        if sort_by = "relevance" then
          sortDescStable (fun a b => b.relevance_score < a.relevance_score) filtered
        else if sort_by = "date" then
          sortDescStable (fun a b =>
            (b.base.metadata.created_time.getD "") < (a.base.metadata.created_time.getD ""))
            filtered
        else if sort_by = "importance" then
          sortDescStable (fun a b => b.importance < a.importance) filtered
        else filtered
      sorted.take top_k

/-- `EnhancedSearchService.search_by_tags` (lines 137-175): delegate to
`search` with the joined tags as query (tag filter only when
`match_all` is false), then for `match_all` keep only results whose
stored tag set contains every requested tag and truncate to `top_k`
again.  The body cannot raise (its one call is `search`, which already
catches), so the surrounding `try/except` is not represented. -/
def search_by_tags (storage : Storage) (tags : List String) (top_k : Nat)
    (match_all : Bool) : List ESR :=
  let query := String.intercalate " " tags
  let results := search storage query top_k none none
    (if match_all then none else some tags) none none 0 "relevance"
  if match_all then
    (results.filter (fun r => tags.all (fun t => r.base.metadata.tags.contains t))).take top_k
  else results

/-- A storage capability returning one candidate at distance 0.95
(relevance score 0.05). -/
def storageFar : Storage := fun _ _ _ =>
  .ok [{ id := some "r1", distance := some (19/20),
         metadata := { file_extension := none, tags := [], created_time := none,
                       importance := none, context_type := none } }]

/-- C1 (code bug): with `min_relevance=0.9` the relevance filter keeps a
candidate at distance 0.95, because line 81 compares the raw `distance`
against `min_relevance` (`result.get("distance", 1.0) < min_relevance`)
instead of the relevance score `1 − distance` its own docstring
("Minimum relevance score") and the spec prescribe: `search` returns a
result with `relevance_score = 0.05 < 0.9`. -/
theorem search_min_relevance_code_bug :
    (search storageFar "q" 10 none none none none none (9/10) "relevance").map
        (fun r => r.relevance_score) = [1/20] ∧ (1/20 : ℚ) < 9/10 := by
  constructor
  · with_unfolding_all rfl
  · norm_num

/-- C6: `search_by_tags(tags, top_k, match_all=True)` returns only
results whose stored tag set contains every requested tag, and at most
`top_k` of them. -/
theorem search_by_tags_match_all_superset (storage : Storage)
    (tags : List String) (top_k : Nat) :
    (∀ r ∈ search_by_tags storage tags top_k true,
        ∀ t ∈ tags, r.base.metadata.tags.contains t) ∧
      (search_by_tags storage tags top_k true).length ≤ top_k := by
  unfold search_by_tags
  simp only [if_pos rfl]
  constructor
  · intro r hr t ht
    have hr2 := List.mem_of_mem_take hr
    have hall := (List.mem_filter.mp hr2).2
    rw [List.all_eq_true] at hall
    exact hall t ht
  · exact List.length_take_le top_k _

/-- A storage capability with one candidate tagged `x, y` and one tagged
only `y`. -/
def storageTags : Storage := fun _ _ _ =>
  .ok [{ id := some "a", distance := some (1/10),
         metadata := { file_extension := none, tags := ["x", "y"],
                       created_time := none, importance := none, context_type := none } },
       { id := some "b", distance := some (1/5),
         metadata := { file_extension := none, tags := ["y"],
                       created_time := none, importance := none, context_type := none } }]

/-- The enhanced result produced for candidate `a` of `storageTags`. -/
def esrA : ESR :=
  { base := { id := some "a", distance := some (1/10),
              metadata := { file_extension := none, tags := ["x", "y"],
                            created_time := none, importance := none,
                            context_type := none } },
    relevance_score := 9/10, importance := 50 }

/-- Witness for C6 on `storageTags`: searching for tag `x` with
`match_all` returns exactly the `x, y`-tagged candidate. -/
theorem search_by_tags_match_all_superset_witness :
    esrA ∈ search_by_tags storageTags ["x"] 2 true ∧
      (∀ t ∈ ["x"], esrA.base.metadata.tags.contains t) ∧
      (search_by_tags storageTags ["x"] 2 true).length ≤ 2 :=
  have hlist : search_by_tags storageTags ["x"] 2 true = [esrA] := by
    with_unfolding_all rfl
  ⟨hlist ▸ List.mem_singleton.mpr rfl,
    (search_by_tags_match_all_superset storageTags ["x"] 2).1 esrA
      (hlist ▸ List.mem_singleton.mpr rfl),
    (search_by_tags_match_all_superset storageTags ["x"] 2).2⟩

/-! ### `EnhancedSearchService.get_facets` (lines 247-324) -/

structure DateRanges where
  last_day : Nat
  last_week : Nat
  last_month : Nat
  older : Nat
deriving DecidableEq

/-- One value of the returned facets dictionary: either a per-key count
map or the four-bucket date histogram. -/
inductive FacetValue where
  | counts (m : List (String × Nat))
  | dates (d : DateRanges)
deriving DecidableEq

/-- `d[k] = d.get(k, 0) + 1` on an insertion-ordered Python dict. -/
def bump (m : List (String × Nat)) (k : String) : List (String × Nat) :=
  if m.any (fun q => q.1 = k) then
    m.map (fun q => if q.1 = k then (q.1, q.2 + 1) else q)
  else m ++ [(k, 1)]

structure FacetsAcc where
  file_types : List (String × Nat)
  context_types : List (String × Nat)
  tags : List (String × Nat)
  date_ranges : DateRanges
deriving DecidableEq

/-- One iteration of the facet loop (lines 282-313) on a result's
metadata: count the file extension and context type (default
`"unknown"`), the first five tags, and the candidate's date bucket
relative to `now`; a missing or unparseable timestamp contributes to no
bucket. -/
def facetStep (now : Int) (acc : FacetsAcc) (md : SRMeta) : FacetsAcc :=
  let acc1 := { acc with
    file_types := bump acc.file_types (lstripDots (md.file_extension.getD "unknown")) }
  let acc2 := { acc1 with
    context_types := bump acc1.context_types (md.context_type.getD "unknown") }
  let acc3 := { acc2 with tags := (md.tags.take 5).foldl bump acc2.tags }
  match md.created_time with
  | none => acc3
  | some s =>
    if s = "" then acc3
    else
      match fromisoformat s with
      | none => acc3
      | some dt =>
        let days_ago := now - dt
        if days_ago < 1 then
          { acc3 with date_ranges :=
              { acc3.date_ranges with last_day := acc3.date_ranges.last_day + 1 } }
        else if days_ago < 7 then
          { acc3 with date_ranges :=
              { acc3.date_ranges with last_week := acc3.date_ranges.last_week + 1 } }
        else if days_ago < 30 then
          { acc3 with date_ranges :=
              { acc3.date_ranges with last_month := acc3.date_ranges.last_month + 1 } }
        else
          { acc3 with date_ranges :=
              { acc3.date_ranges with older := acc3.date_ranges.older + 1 } }

/-- The body of `get_facets` inside its `try`: candidates come from
`search` when a (truthy) query is given — `search` swallows its own
errors — and from a bare `storage.search_context("", 100)` call (which
can raise) otherwise; then the loop accumulates, the tag facet is sorted
by descending count and capped to 20, and the four-entry dictionary is
returned in insertion order. -/
def get_facets_body (storage : Storage) (query : Option String)
    (context_types : Option (List String)) (now : Int) :
    Except String (List (String × FacetValue)) := do
  let mds ← (match query with
    | some q =>
      if q ≠ "" then
        pure ((search storage q 100 context_types none none none none 0 "relevance").map
          (fun r => r.base.metadata))
      else (storage "" 100 none).map (fun rs => rs.map (fun r => r.metadata))
    | none => (storage "" 100 none).map (fun rs => rs.map (fun r => r.metadata)))
  let acc := mds.foldl (facetStep now)
    { file_types := [], context_types := [], tags := [],
      date_ranges := { last_day := 0, last_week := 0, last_month := 0, older := 0 } }
  pure [("file_types", .counts acc.file_types),
        ("context_types", .counts acc.context_types),
        ("tags", .counts ((sortDescStable (fun a b => b.2 < a.2) acc.tags).take 20)),
        ("date_ranges", .dates acc.date_ranges)]

/-- `EnhancedSearchService.get_facets`: the body wrapped in
`try/except Exception: return {}` — the empty dictionary, not a
zero-count facet structure. -/
def get_facets (storage : Storage) (query : Option String)
    (context_types : Option (List String)) (now : Int) :
    List (String × FacetValue) :=
  match get_facets_body storage query context_types now with
  | .ok l => l
  | .error _ => []

/-- C10: when the storage call inside `get_facets` raises (the no-query
path), `get_facets` returns the completely empty dictionary: none of the
keys `file_types`, `context_types`, `tags`, `date_ranges` is present, so
a caller indexing them finds nothing. -/
theorem get_facets_empty_on_storage_failure (storage : Storage)
    (context_types : Option (List String)) (now : Int) (e : String)
    (h : storage "" 100 none = .error e) :
    get_facets storage none context_types now = [] ∧
      ∀ k : String, (get_facets storage none context_types now).lookup k = none := by
  have hbody : get_facets_body storage none context_types now = .error e := by
    unfold get_facets_body
    rw [h]
    rfl
  unfold get_facets
  rw [hbody]
  exact ⟨rfl, fun k => rfl⟩

/-- A storage capability whose search raises. -/
def storageFail : Storage := fun _ _ _ => .error "storage unavailable"

/-- Witness for C10 on the concrete failing storage. -/
theorem get_facets_empty_on_storage_failure_witness :
    get_facets storageFail none none 0 = [] ∧
      (get_facets storageFail none none 0).lookup "file_types" = none ∧
      (get_facets storageFail none none 0).lookup "date_ranges" = none :=
  ⟨(get_facets_empty_on_storage_failure storageFail none 0 "storage unavailable" rfl).1,
    (get_facets_empty_on_storage_failure storageFail none 0 "storage unavailable" rfl).2
      "file_types",
    (get_facets_empty_on_storage_failure storageFail none 0 "storage unavailable" rfl).2
      "date_ranges"⟩
